import Mathlib

/-!
# Fish Swim: the per-frame simulation of `godot-web-export/script.js`

A shallow embedding of the simulation core of the game (`update`,
`spawnCollectible` and the state they act on) and the properties of it that the
specification states.

Modelling conventions.

* JavaScript numbers used for positions, velocities and random draws are exact
  rationals (`ℚ`); the score, point values and clock readings are integers.
* The globals `score`, `gameRunning`, `boostActive`, `boostEndTime`, `fish` and
  `collectibles` are the fields of `GameState`.  The purely cosmetic globals
  (`bubbles`, `particles`, `backgroundLayers`, `fish.tailAngle`, the audio
  context and the DOM) are disjoint from that state and are left out.
* Everything `update` reads from its environment is an explicit argument
  (`Inputs`): the thrust latch `isThrusting`, the readings of `Date.now()` and
  the draws of `Math.random()`, one field per call site.
* A JavaScript object has an identity.  Each collectible carries it as the
  field `ref`; `nextRef` is the allocation counter from which
  `spawnCollectible` takes the identity of the object it creates.
* `resolved` is a ghost field: the collectibles whose collision branch ran
  during the current call of `update`, in order.
-/

namespace FishSwim

/-! ## Game constants -/

def CANVAS_WIDTH : ℚ := 800
def CANVAS_HEIGHT : ℚ := 600
def GRAVITY : ℚ := 3 / 10
def THRUST : ℚ := -(8 / 10)
def FRICTION : ℚ := 98 / 100
def COLLECTIBLE_SPEED : ℚ := 2

/-! ## Game state -/

/-- The fields of the `fish` object that the simulation reads or writes. -/
structure Fish where
  x : ℚ
  y : ℚ
  width : ℚ
  height : ℚ
  velocityY : ℚ
  deriving DecidableEq, Repr

/-- An element of the `collectibles` array.  `ref` is the identity of the
object; the other fields are those of the object literal pushed by
`spawnCollectible`. -/
structure Collectible where
  ref : Nat
  x : ℚ
  y : ℚ
  width : ℚ
  height : ℚ
  type : String
  points : Int
  color : String
  rotation : ℚ
  glow : Bool
  deriving DecidableEq, Repr

/-- The mutable globals of the script. -/
structure GameState where
  score : Int
  gameRunning : Bool
  boostActive : Bool
  boostEndTime : Int
  fish : Fish
  collectibles : List Collectible
  nextRef : Nat
  resolved : List Collectible
  deriving DecidableEq, Repr

/-- What one call of `update` reads from its environment. -/
structure Inputs where
  /-- The latch `isThrusting` as the call finds it. -/
  isThrusting : Bool
  /-- The reading of `Date.now()` in the boost-expiry test. -/
  nowExpiry : Int
  /-- The reading of `Date.now()` in the collision branch of the callback
  invoked with the given index. -/
  nowHit : Nat → Int
  /-- The draw of `Math.random()` that decides whether to spawn. -/
  spawnRoll : ℚ
  /-- The draw `rand` of `spawnCollectible`. -/
  typeRoll : ℚ
  /-- The draw of `Math.random()` for the vertical position of a spawn. -/
  yRoll : ℚ

/-- The `fish` object as the script creates it. -/
def initialFish : Fish :=
  { x := 100, y := CANVAS_HEIGHT / 2, width := 50, height := 30, velocityY := 0 }

/-- The globals as the script initialises them. -/
def initialState : GameState :=
  { score := 0, gameRunning := true, boostActive := false, boostEndTime := 0,
    fish := initialFish, collectibles := [], nextRef := 0, resolved := [] }

/-! ## `spawnCollectible` -/

/-- An entry of the table `types`. -/
structure SpawnType where
  name : String
  points : Int
  color : String
  rarity : ℚ
  deriving DecidableEq, Repr

def shellType : SpawnType :=
  { name := "shell", points := 1, color := "#FFD700", rarity := 6 / 10 }
def starfishType : SpawnType :=
  { name := "starfish", points := 3, color := "#FF6347", rarity := 25 / 100 }
def pearlType : SpawnType :=
  { name := "pearl", points := 5, color := "#F0E68C", rarity := 1 / 10 }
def bubblePackType : SpawnType :=
  { name := "bubblePack", points := 0, color := "#87CEEB", rarity := 5 / 100 }

/-- The table `types` of `spawnCollectible`. -/
def types : List SpawnType := [shellType, starfishType, pearlType, bubblePackType]

/-- The loop `for (const type of types)`: `cumulative` and `selectedType` are
the loop variables, the first entry whose running sum covers `rand` is
selected and the loop is left. -/
def selectLoop (rand : ℚ) : List SpawnType → ℚ → SpawnType → SpawnType
  | [], _, selectedType => selectedType
  | type :: rest, cumulative, selectedType =>
    if rand ≤ cumulative + type.rarity then type
    else selectLoop rand rest (cumulative + type.rarity) selectedType

/-- The selection of `spawnCollectible`: `cumulative` starts at `0` and
`selectedType` at `types[0]`. -/
def selectType (rand : ℚ) : SpawnType :=
  selectLoop rand types 0 shellType

/-- The function `spawnCollectible`: pushes one new object. -/
def spawnCollectible (inp : Inputs) (s : GameState) : GameState :=
  let selectedType := selectType inp.typeRoll
  { s with
    collectibles := s.collectibles ++
      [{ ref := s.nextRef
         x := CANVAS_WIDTH
         y := inp.yRoll * (CANVAS_HEIGHT - 100) + 50
         width := 30
         height := 30
         type := selectedType.name
         points := selectedType.points
         color := selectedType.color
         rotation := 0
         glow := selectedType.name == "pearl" }]
    nextRef := s.nextRef + 1 }

/-! ## `update` -/

/-- The block "Fish movement" and "Keep fish in bounds" of `update`. -/
def moveFish (isThrusting : Bool) (f : Fish) : Fish :=
  let v1 := if isThrusting then f.velocityY + THRUST else f.velocityY
  let v2 := v1 + GRAVITY
  let v3 := v2 * FRICTION
  let y1 := f.y + v3
  let y2 := if y1 < 0 then 0 else y1
  let y3 := if y2 + f.height > CANVAS_HEIGHT then CANVAS_HEIGHT - f.height else y2
  { f with velocityY := v3, y := y3 }

/-- The collision test of the callback. -/
def collides (f : Fish) (c : Collectible) : Bool :=
  decide (f.x < c.x + c.width) && decide (f.x + f.width > c.x) &&
    decide (f.y < c.y + c.height) && decide (f.y + f.height > c.y)

/-- The first two statements of the callback: the object moves left and
turns. -/
def advance (boostActive : Bool) (c : Collectible) : Collectible :=
  { c with
    x := c.x - (COLLECTIBLE_SPEED + if boostActive then 2 else 0)
    rotation := c.rotation + 5 / 100 }

/-- The method `collectibles.splice(index, 1)`. -/
def splice1 (index : Nat) (s : GameState) : GameState :=
  { s with collectibles := s.collectibles.eraseIdx index }

/-- The callback passed to `collectibles.forEach`, invoked with the object
`collectible` found at position `index`.  The object is updated in place, so
the array holds the moved object at `index` until a `splice` removes it. -/
def callback (inp : Inputs) (collectible : Collectible) (index : Nat)
    (s : GameState) : GameState :=
  let c := advance s.boostActive collectible
  let s1 := { s with collectibles := s.collectibles.set index c }
  let s2 :=
    if collides s1.fish c then
      let s' :=
        if c.type = "bubblePack" then
          { s1 with boostActive := true, boostEndTime := inp.nowHit index + 3000,
                    resolved := s1.resolved ++ [c] }
        else
          { s1 with score := s1.score + c.points, resolved := s1.resolved ++ [c] }
      splice1 index s'
    else s1
  if c.x + c.width < 0 then splice1 index s2 else s2

/-- The iteration of `Array.prototype.forEach`: the number of steps is the
length of the array when the loop starts (`n` steps remain), step `k` invokes
the callback on the element found at index `k` at that moment, and does
nothing when the array has become too short to have one. -/
def forEachFrom (inp : Inputs) : Nat → Nat → GameState → GameState
  | 0, _, s => s
  | n + 1, k, s =>
    match s.collectibles[k]? with
    | some collectible => forEachFrom inp n (k + 1) (callback inp collectible k s)
    | none => forEachFrom inp n (k + 1) s

/-- The statement `collectibles.forEach(...)` of `update`. -/
def forEachCollectible (inp : Inputs) (s : GameState) : GameState :=
  forEachFrom inp s.collectibles.length 0 s

/-- The block "Boost effect" of `update`. -/
def expireBoost (now : Int) (s : GameState) : GameState :=
  if s.boostActive && decide (now > s.boostEndTime) then { s with boostActive := false }
  else s

/-- The block "Spawn collectibles occasionally" of `update`. -/
def maybeSpawn (inp : Inputs) (s : GameState) : GameState :=
  if inp.spawnRoll < 2 / 100 then spawnCollectible inp s else s

/-- The function `update`. -/
def update (inp : Inputs) (s : GameState) : GameState :=
  let s0 := { s with resolved := [] }
  if !s0.gameRunning then s0
  else
    let s1 := { s0 with fish := moveFish inp.isThrusting s0.fish }
    let s2 := expireBoost inp.nowExpiry s1
    let s3 := forEachCollectible inp s2
    maybeSpawn inp s3

/-- The state after the calls of `update` made by successive frames, one per
element of `inputs`. -/
def run (s : GameState) (inputs : List Inputs) : GameState :=
  inputs.foldl (fun st inp => update inp st) s

/-! ## Vocabulary of the statements -/

/-- The usual clamp of `z` into the interval from `lo` to `hi`. -/
def clamp (z lo hi : ℚ) : ℚ := max lo (min z hi)

/-- The identities of the objects in the `collectibles` array. -/
def liveRefs (s : GameState) : List Nat := s.collectibles.map (fun c => c.ref)

/-- The heap discipline of the script: no object occurs twice in the array and
every object in it was allocated before the next one to be allocated. -/
def WellFormed (s : GameState) : Prop :=
  (liveRefs s).Nodup ∧ ∀ r ∈ liveRefs s, r < s.nextRef

/-- The frames of a run in which no power-up is consumed: in none of the calls
of `update` does the collision branch run for a `bubblePack`. -/
def powerUpFree : GameState → List Inputs → Bool
  | _, [] => true
  | s, inp :: rest =>
    (update inp s).resolved.all (fun c => c.type != "bubblePack") &&
      powerUpFree (update inp s) rest

/-- All the collectibles whose collision is resolved during a run, frame after
frame. -/
def collectedAlong : GameState → List Inputs → List Collectible
  | _, [] => []
  | s, inp :: rest => (update inp s).resolved ++ collectedAlong (update inp s) rest

/-- The point values of the table `types`. -/
def tablePoints (p : Int) : Prop := p = 1 ∨ p = 3 ∨ p = 5 ∨ p = 0

/-- The identities of the objects whose collision was resolved in the current
call of `update`. -/
def resolvedRefs (s : GameState) : List Nat := s.resolved.map (fun c => c.ref)

/-- The invariant of the loop over the collectibles, relative to the
identities `A` found in the array when the loop starts: no object occurs twice
in the array, none is resolved twice, no resolved object is still in the array,
and the loop brings no new object into play. -/
def LoopInv (A : List Nat) (s : GameState) : Prop :=
  (liveRefs s).Nodup ∧ (resolvedRefs s).Nodup ∧
    (∀ r ∈ resolvedRefs s, r ∉ liveRefs s) ∧
    (∀ r ∈ liveRefs s, r ∈ A) ∧ (∀ r ∈ resolvedRefs s, r ∈ A)

/-- The points that a list of resolved collisions adds to the score: those of
the collectibles that are not power-ups. -/
def scoredPoints (l : List Collectible) : Int :=
  ((l.filter (fun c => c.type != "bubblePack")).map (fun c => c.points)).sum

/-- A collectible that the callback leaves in the array: after its move it
neither overlaps the fish nor has its right edge left of the boundary. -/
def staysInArray (boostActive : Bool) (f : Fish) (c : Collectible) : Bool :=
  !collides f (advance boostActive c) &&
    !decide ((advance boostActive c).x + (advance boostActive c).width < 0)

/-! ## Concrete frames and states -/

/-- A frame without thrust and without spawn in which every clock reading is
`now`. -/
def idleInputs (now : Int) : Inputs :=
  { isThrusting := false, nowExpiry := now, nowHit := fun _ => now,
    spawnRoll := 1 / 2, typeRoll := 1 / 2, yRoll := 1 / 2 }

/-- An object as `spawnCollectible` builds it for the table entry `t`, with
identity `ref`, found at position `x`, `y`. -/
def mkCollectible (ref : Nat) (x y : ℚ) (t : SpawnType) : Collectible :=
  { ref := ref, x := x, y := y, width := 30, height := 30, type := t.name,
    points := t.points, color := t.color, rotation := 0, glow := t.name == "pearl" }

/-- The initial state with the given objects in the array. -/
def stateWith (cs : List Collectible) : GameState :=
  { initialState with collectibles := cs, nextRef := cs.length }

/-! ## Frame lemmas: what the loop and the spawn leave alone -/

theorem callback_fish (inp : Inputs) (c : Collectible) (k : Nat) (s : GameState) :
    (callback inp c k s).fish = s.fish := by
  unfold callback splice1
  dsimp only
  split_ifs <;> rfl

theorem callback_gameRunning (inp : Inputs) (c : Collectible) (k : Nat) (s : GameState) :
    (callback inp c k s).gameRunning = s.gameRunning := by
  unfold callback splice1
  dsimp only
  split_ifs <;> rfl

theorem callback_nextRef (inp : Inputs) (c : Collectible) (k : Nat) (s : GameState) :
    (callback inp c k s).nextRef = s.nextRef := by
  unfold callback splice1
  dsimp only
  split_ifs <;> rfl

theorem forEachFrom_fish (inp : Inputs) (n k : Nat) (s : GameState) :
    (forEachFrom inp n k s).fish = s.fish := by
  induction n generalizing k s with
  | zero => rfl
  | succ n ih =>
    unfold forEachFrom
    split
    · rw [ih, callback_fish]
    · rw [ih]

theorem forEachFrom_gameRunning (inp : Inputs) (n k : Nat) (s : GameState) :
    (forEachFrom inp n k s).gameRunning = s.gameRunning := by
  induction n generalizing k s with
  | zero => rfl
  | succ n ih =>
    unfold forEachFrom
    split
    · rw [ih, callback_gameRunning]
    · rw [ih]

theorem forEachFrom_nextRef (inp : Inputs) (n k : Nat) (s : GameState) :
    (forEachFrom inp n k s).nextRef = s.nextRef := by
  induction n generalizing k s with
  | zero => rfl
  | succ n ih =>
    unfold forEachFrom
    split
    · rw [ih, callback_nextRef]
    · rw [ih]

theorem expireBoost_fish (now : Int) (s : GameState) :
    (expireBoost now s).fish = s.fish := by
  unfold expireBoost; split_ifs <;> rfl

theorem expireBoost_gameRunning (now : Int) (s : GameState) :
    (expireBoost now s).gameRunning = s.gameRunning := by
  unfold expireBoost; split_ifs <;> rfl

theorem maybeSpawn_fish (inp : Inputs) (s : GameState) :
    (maybeSpawn inp s).fish = s.fish := by
  unfold maybeSpawn spawnCollectible; split_ifs <;> rfl

theorem maybeSpawn_gameRunning (inp : Inputs) (s : GameState) :
    (maybeSpawn inp s).gameRunning = s.gameRunning := by
  unfold maybeSpawn spawnCollectible; split_ifs <;> rfl

/-- A running game executes the four blocks of `update` in order. -/
theorem update_running (inp : Inputs) (s : GameState) (hrun : s.gameRunning = true) :
    update inp s =
      maybeSpawn inp (forEachCollectible inp (expireBoost inp.nowExpiry
        { s with resolved := [], fish := moveFish inp.isThrusting s.fish })) := by
  simp [update, hrun]

theorem update_fish (inp : Inputs) (s : GameState) (hrun : s.gameRunning = true) :
    (update inp s).fish = moveFish inp.isThrusting s.fish := by
  rw [update_running inp s hrun, maybeSpawn_fish, forEachCollectible, forEachFrom_fish,
    expireBoost_fish]

theorem update_gameRunning (inp : Inputs) (s : GameState) :
    (update inp s).gameRunning = s.gameRunning := by
  cases hrun : s.gameRunning
  · simp [update, hrun]
  · rw [update_running inp s hrun, maybeSpawn_gameRunning, forEachCollectible,
      forEachFrom_gameRunning, expireBoost_gameRunning]
    exact hrun

theorem moveFish_height (b : Bool) (f : Fish) : (moveFish b f).height = f.height := rfl

theorem moveFish_x (b : Bool) (f : Fish) : (moveFish b f).x = f.x := rfl

theorem update_fish_height (inp : Inputs) (s : GameState) :
    (update inp s).fish.height = s.fish.height := by
  cases hrun : s.gameRunning
  · simp [update, hrun]
  · rw [update_fish inp s hrun, moveFish_height]

theorem run_snoc (s : GameState) (inputs : List Inputs) (inp : Inputs) :
    run s (inputs ++ [inp]) = update inp (run s inputs) := by
  simp [run, List.foldl_append]

theorem run_cons (s : GameState) (inp : Inputs) (inputs : List Inputs) :
    run s (inp :: inputs) = run (update inp s) inputs := rfl

theorem run_gameRunning (s : GameState) (inputs : List Inputs) :
    (run s inputs).gameRunning = s.gameRunning := by
  induction inputs generalizing s with
  | nil => rfl
  | cons inp rest ih => rw [run_cons, ih, update_gameRunning]

theorem run_fish_height (s : GameState) (inputs : List Inputs) :
    (run s inputs).fish.height = s.fish.height := by
  induction inputs generalizing s with
  | nil => rfl
  | cons inp rest ih => rw [run_cons, ih, update_fish_height]

theorem moveFish_bounds (b : Bool) (f : Fish) (hh : f.height = 30) :
    0 ≤ (moveFish b f).y ∧ (moveFish b f).y ≤ 570 := by
  simp only [moveFish, hh, CANVAS_HEIGHT]
  split_ifs <;> constructor <;> linarith

/-! ## The physics step -/

/-- C1. Bounds invariant: for every state of a running game whose fish has
height 30, whatever the position, the velocity and the thrust latch, the fish
satisfies `0 ≤ y ≤ CANVAS_HEIGHT - height = 570` after one call of `update`;
and the same bound holds after every frame of every run from the initial
state. -/
theorem fish_stays_in_bounds (inp : Inputs) (s : GameState)
    (hrun : s.gameRunning = true) (hh : s.fish.height = 30) :
    (0 ≤ (update inp s).fish.y ∧
      (update inp s).fish.y ≤ CANVAS_HEIGHT - (update inp s).fish.height ∧
      CANVAS_HEIGHT - (update inp s).fish.height = 570) ∧
    ∀ (inputs : List Inputs) (last : Inputs),
      0 ≤ (run initialState (inputs ++ [last])).fish.y ∧
      (run initialState (inputs ++ [last])).fish.y ≤ 570 := by
  refine ⟨?_, ?_⟩
  · have hb := moveFish_bounds inp.isThrusting s.fish hh
    rw [update_fish inp s hrun, moveFish_height, hh]
    refine ⟨hb.1, ?_, ?_⟩
    · have : CANVAS_HEIGHT - 30 = 570 := by norm_num [CANVAS_HEIGHT]
      rw [this]; exact hb.2
    · norm_num [CANVAS_HEIGHT]
  · intro inputs last
    have hr : (run initialState inputs).gameRunning = true := by
      rw [run_gameRunning]; rfl
    have hh2 : (run initialState inputs).fish.height = 30 := by
      rw [run_fish_height]; rfl
    rw [run_snoc, update_fish _ _ hr]
    exact moveFish_bounds _ _ hh2

/-- The bound of C1 at the initial state, for a frame with thrust. -/
theorem fish_stays_in_bounds_witness :
    initialState.gameRunning = true ∧ initialState.fish.height = 30 ∧
    0 ≤ (update { idleInputs 0 with isThrusting := true } initialState).fish.y ∧
    (update { idleInputs 0 with isThrusting := true } initialState).fish.y ≤
      CANVAS_HEIGHT -
        (update { idleInputs 0 with isThrusting := true } initialState).fish.height :=
  ⟨rfl, rfl,
    (fish_stays_in_bounds { idleInputs 0 with isThrusting := true } initialState rfl rfl).1.1,
    (fish_stays_in_bounds { idleInputs 0 with isThrusting := true } initialState rfl rfl).1.2.1⟩

/-- C7. Physics step in exact arithmetic: one call of `update` on a running
game whose fish has height 30 sets the velocity to
`(velocityY + (-0.8 if thrusting, else 0) + 0.3) * 0.98` and the position to
the clamp of `y + velocityY'` into `[0, 570]`; the velocity is the computed one
whether or not the position was clipped. -/
theorem physics_step (inp : Inputs) (s : GameState)
    (hrun : s.gameRunning = true) (hh : s.fish.height = 30) :
    (update inp s).fish.velocityY =
      (s.fish.velocityY + (if inp.isThrusting then -(8 / 10) else 0) + 3 / 10) * (98 / 100) ∧
    (update inp s).fish.y =
      clamp (s.fish.y + (update inp s).fish.velocityY) 0 570 := by
  rw [update_fish inp s hrun]
  simp only [moveFish, hh, CANVAS_HEIGHT, THRUST, GRAVITY, FRICTION, clamp]
  constructor
  · split_ifs <;> ring
  · simp only [max_def, min_def]
    split_ifs <;> linarith

/-- The scenario of C7: from `y = 300`, `velocityY = 0` and no thrust one frame
gives `velocityY = 0.294` and `y = 300.294`. -/
theorem physics_step_witness :
    initialState.gameRunning = true ∧ initialState.fish.height = 30 ∧
    initialState.fish.y = 300 ∧ initialState.fish.velocityY = 0 ∧
    (update (idleInputs 0) initialState).fish.velocityY = 294 / 1000 ∧
    (update (idleInputs 0) initialState).fish.y = 300294 / 1000 := by
  have h := physics_step (idleInputs 0) initialState rfl rfl
  have hv : (update (idleInputs 0) initialState).fish.velocityY = 294 / 1000 := by
    rw [h.1]; norm_num [idleInputs, initialState, initialFish]
  refine ⟨rfl, rfl, by norm_num [initialState, initialFish, CANVAS_HEIGHT], rfl, hv, ?_⟩
  rw [h.2, hv]
  norm_num [clamp, initialState, initialFish, CANVAS_HEIGHT]

/-! ## The spawn selector -/

theorem selectType_bins (r : ℚ) (h1 : r < 1) :
    (r ≤ 6 / 10 → selectType r = shellType) ∧
    (6 / 10 < r → r ≤ 85 / 100 → selectType r = starfishType) ∧
    (85 / 100 < r → r ≤ 95 / 100 → selectType r = pearlType) ∧
    (95 / 100 < r → selectType r = bubblePackType) := by
  refine ⟨fun h => ?_, fun h h' => ?_, fun h h' => ?_, fun h => ?_⟩ <;>
    simp only [selectType, selectLoop, types, shellType, starfishType, pearlType,
      bubblePackType] <;>
    split_ifs <;> first | rfl | (exfalso; linarith)

theorem selectType_overshoot (r : ℚ) (h : 1 < r) : selectType r = shellType := by
  simp only [selectType, selectLoop, types, shellType, starfishType, pearlType, bubblePackType]
  split_ifs <;> first | rfl | (exfalso; linarith)

/-- C5. The spawn selector is total and picks the first bin whose cumulative
bound covers the draw: for a draw `r` with `0 ≤ r < 1` the selected entry is
one of the four entries of the table, it is `shell` (1 point) iff `r ≤ 0.60`,
`starfish` (3 points) iff `0.60 < r ≤ 0.85`, `pearl` (5 points) iff
`0.85 < r ≤ 0.95` and `bubblePack` (0 points) iff `0.95 < r`, and the object
pushed by `spawnCollectible` carries the name and the points of the selected
entry. -/
theorem spawn_selector_bins (inp : Inputs) (s : GameState)
    (_h0 : 0 ≤ inp.typeRoll) (h1 : inp.typeRoll < 1) :
    selectType inp.typeRoll ∈ types ∧
    (selectType inp.typeRoll = shellType ↔ inp.typeRoll ≤ 6 / 10) ∧
    (selectType inp.typeRoll = starfishType ↔
      6 / 10 < inp.typeRoll ∧ inp.typeRoll ≤ 85 / 100) ∧
    (selectType inp.typeRoll = pearlType ↔
      85 / 100 < inp.typeRoll ∧ inp.typeRoll ≤ 95 / 100) ∧
    (selectType inp.typeRoll = bubblePackType ↔ 95 / 100 < inp.typeRoll) ∧
    (shellType.name = "shell" ∧ shellType.points = 1) ∧
    (starfishType.name = "starfish" ∧ starfishType.points = 3) ∧
    (pearlType.name = "pearl" ∧ pearlType.points = 5) ∧
    (bubblePackType.name = "bubblePack" ∧ bubblePackType.points = 0) ∧
    ∃ c, (spawnCollectible inp s).collectibles = s.collectibles ++ [c] ∧
      c.type = (selectType inp.typeRoll).name ∧
      c.points = (selectType inp.typeRoll).points := by
  obtain ⟨b1, b2, b3, b4⟩ := selectType_bins inp.typeRoll h1
  have d12 : shellType ≠ starfishType := by decide
  have d13 : shellType ≠ pearlType := by decide
  have d14 : shellType ≠ bubblePackType := by decide
  have d23 : starfishType ≠ pearlType := by decide
  have d24 : starfishType ≠ bubblePackType := by decide
  have d34 : pearlType ≠ bubblePackType := by decide
  have hcases : inp.typeRoll ≤ 6 / 10 ∨ (6 / 10 < inp.typeRoll ∧ inp.typeRoll ≤ 85 / 100) ∨
      (85 / 100 < inp.typeRoll ∧ inp.typeRoll ≤ 95 / 100) ∨ 95 / 100 < inp.typeRoll := by
    by_cases a : inp.typeRoll ≤ 6 / 10
    · exact Or.inl a
    · by_cases b : inp.typeRoll ≤ 85 / 100
      · exact Or.inr (Or.inl ⟨not_le.mp a, b⟩)
      · by_cases c : inp.typeRoll ≤ 95 / 100
        · exact Or.inr (Or.inr (Or.inl ⟨not_le.mp b, c⟩))
        · exact Or.inr (Or.inr (Or.inr (not_le.mp c)))
  refine ⟨?_, ?_, ?_, ?_, ?_, ⟨rfl, rfl⟩, ⟨rfl, rfl⟩, ⟨rfl, rfl⟩, ⟨rfl, rfl⟩, ⟨_, rfl, rfl, rfl⟩⟩
  · rcases hcases with h | ⟨h, h'⟩ | ⟨h, h'⟩ | h
    · rw [b1 h]; simp [types]
    · rw [b2 h h']; simp [types]
    · rw [b3 h h']; simp [types]
    · rw [b4 h]; simp [types]
  · refine ⟨fun e => ?_, b1⟩
    rcases hcases with h | ⟨h, h'⟩ | ⟨h, h'⟩ | h
    · exact h
    · rw [b2 h h'] at e; exact absurd e.symm d12
    · rw [b3 h h'] at e; exact absurd e.symm d13
    · rw [b4 h] at e; exact absurd e.symm d14
  · refine ⟨fun e => ?_, fun h => b2 h.1 h.2⟩
    rcases hcases with h | ⟨h, h'⟩ | ⟨h, h'⟩ | h
    · rw [b1 h] at e; exact absurd e d12
    · exact ⟨h, h'⟩
    · rw [b3 h h'] at e; exact absurd e.symm d23
    · rw [b4 h] at e; exact absurd e.symm d24
  · refine ⟨fun e => ?_, fun h => b3 h.1 h.2⟩
    rcases hcases with h | ⟨h, h'⟩ | ⟨h, h'⟩ | h
    · rw [b1 h] at e; exact absurd e d13
    · rw [b2 h h'] at e; exact absurd e d23
    · exact ⟨h, h'⟩
    · rw [b4 h] at e; exact absurd e.symm d34
  · refine ⟨fun e => ?_, b4⟩
    rcases hcases with h | ⟨h, h'⟩ | ⟨h, h'⟩ | h
    · rw [b1 h] at e; exact absurd e d14
    · rw [b2 h h'] at e; exact absurd e d24
    · rw [b3 h h'] at e; exact absurd e d34
    · exact h

/-- The draw `0.9` of C5 selects the pearl. -/
theorem spawn_selector_bins_witness :
    (0 : ℚ) ≤ ({ idleInputs 0 with typeRoll := 9 / 10 } : Inputs).typeRoll ∧
    ({ idleInputs 0 with typeRoll := 9 / 10 } : Inputs).typeRoll < 1 ∧
    (selectType ({ idleInputs 0 with typeRoll := 9 / 10 } : Inputs).typeRoll = pearlType ↔
      85 / 100 < ({ idleInputs 0 with typeRoll := 9 / 10 } : Inputs).typeRoll ∧
        ({ idleInputs 0 with typeRoll := 9 / 10 } : Inputs).typeRoll ≤ 95 / 100) :=
  ⟨by norm_num [idleInputs], by norm_num [idleInputs],
    (spawn_selector_bins { idleInputs 0 with typeRoll := 9 / 10 } initialState
      (by norm_num [idleInputs]) (by norm_num [idleInputs])).2.2.2.1⟩

/-- The claim C6 fails: the draw `2` exceeds every cumulative bound of the
table (the last one is 1), and the selection is the first entry `shell`, not
the last entry `bubblePack`. -/
theorem fallback_is_not_last_entry :
    (0 : ℚ) + shellType.rarity + starfishType.rarity + pearlType.rarity +
      bubblePackType.rarity < 2 ∧
    types.getLast? = some bubblePackType ∧
    selectType 2 = shellType ∧ selectType 2 ≠ bubblePackType := by
  decide!

/-- C6, amended. Fallback of the spawn selector: for every draw that exceeds
every cumulative bound of the table (`r > 1`), the selection resolves to the
first entry of the table, `shell` with 1 point, the value `selectedType` is
initialised with. -/
theorem fallback_is_first_entry (r : ℚ) (h : 1 < r) :
    selectType r = shellType ∧ types.head? = some shellType ∧
      (selectType r).name = "shell" ∧ (selectType r).points = 1 := by
  rw [selectType_overshoot r h]
  exact ⟨rfl, rfl, rfl, rfl⟩

/-- The draw `2` falls back to the shell. -/
theorem fallback_is_first_entry_witness :
    (1 : ℚ) < 2 ∧ selectType 2 = shellType :=
  ⟨by norm_num, (fallback_is_first_entry 2 (by norm_num)).1⟩

/-! ## The loop over the collectibles: members and score -/

theorem advance_ref (b : Bool) (c : Collectible) : (advance b c).ref = c.ref := rfl
theorem advance_points (b : Bool) (c : Collectible) : (advance b c).points = c.points := rfl
theorem advance_type (b : Bool) (c : Collectible) : (advance b c).type = c.type := rfl

theorem callback_mem (inp : Inputs) (c : Collectible) (k : Nat) (s : GameState)
    (c' : Collectible) (h : c' ∈ (callback inp c k s).collectibles) :
    c' ∈ s.collectibles ∨ c' = advance s.boostActive c := by
  unfold callback splice1 at h
  dsimp only at h
  split_ifs at h <;> dsimp only at h <;>
    first
    | exact List.mem_or_eq_of_mem_set h
    | exact List.mem_or_eq_of_mem_set ((List.eraseIdx_sublist _ _).subset h)
    | exact List.mem_or_eq_of_mem_set
        ((List.eraseIdx_sublist _ _).subset ((List.eraseIdx_sublist _ _).subset h))

theorem callback_score (inp : Inputs) (c : Collectible) (k : Nat) (s : GameState) :
    (callback inp c k s).score = s.score ∨ (callback inp c k s).score = s.score + c.points := by
  unfold callback splice1
  dsimp only
  split_ifs <;> simp [advance]

theorem mem_of_getElem?_eq_some {α : Type} {l : List α} {k : Nat} {a : α}
    (h : l[k]? = some a) : a ∈ l := by
  rw [List.getElem?_eq_some] at h
  obtain ⟨hk, rfl⟩ := h
  exact List.getElem_mem hk

theorem forEachFrom_points (inp : Inputs) (n k : Nat) (s : GameState)
    (h : ∀ c ∈ s.collectibles, tablePoints c.points) :
    (∀ c ∈ (forEachFrom inp n k s).collectibles, tablePoints c.points) ∧
      s.score ≤ (forEachFrom inp n k s).score := by
  induction n generalizing k s with
  | zero => exact ⟨h, le_refl _⟩
  | succ n ih =>
    unfold forEachFrom
    split
    · next c hc =>
      have hcm : c ∈ s.collectibles := mem_of_getElem?_eq_some hc
      have hinv : ∀ c' ∈ (callback inp c k s).collectibles, tablePoints c'.points := by
        intro c' hc'
        rcases callback_mem inp c k s c' hc' with h1 | h1
        · exact h c' h1
        · rw [h1, advance_points]; exact h c hcm
      have hsc : s.score ≤ (callback inp c k s).score := by
        rcases callback_score inp c k s with h1 | h1
        · rw [h1]
        · rw [h1]
          rcases h c hcm with p | p | p | p <;> rw [p] <;> omega
      exact ⟨(ih (k + 1) _ hinv).1, le_trans hsc (ih (k + 1) _ hinv).2⟩
    · exact ih (k + 1) s h

theorem selectType_mem (r : ℚ) : selectType r ∈ types := by
  simp only [selectType, selectLoop, types]
  split_ifs <;> simp

theorem selectType_points (r : ℚ) : tablePoints (selectType r).points := by
  have h := selectType_mem r
  simp only [types, List.mem_cons, List.mem_singleton, List.not_mem_nil, or_false] at h
  rcases h with h | h | h | h <;> rw [h] <;> simp [tablePoints, shellType, starfishType,
    pearlType, bubblePackType]

theorem expireBoost_collectibles (now : Int) (s : GameState) :
    (expireBoost now s).collectibles = s.collectibles := by
  unfold expireBoost; split_ifs <;> rfl

theorem expireBoost_score (now : Int) (s : GameState) :
    (expireBoost now s).score = s.score := by
  unfold expireBoost; split_ifs <;> rfl

theorem maybeSpawn_score (inp : Inputs) (s : GameState) :
    (maybeSpawn inp s).score = s.score := by
  unfold maybeSpawn spawnCollectible; split_ifs <;> rfl

theorem maybeSpawn_points (inp : Inputs) (s : GameState)
    (h : ∀ c ∈ s.collectibles, tablePoints c.points) :
    ∀ c ∈ (maybeSpawn inp s).collectibles, tablePoints c.points := by
  unfold maybeSpawn spawnCollectible
  split_ifs
  · intro c hc
    simp only [List.mem_append, List.mem_singleton] at hc
    rcases hc with hc | hc
    · exact h c hc
    · rw [hc]; exact selectType_points _
  · exact h

theorem update_points (inp : Inputs) (s : GameState)
    (h : ∀ c ∈ s.collectibles, tablePoints c.points) :
    (∀ c ∈ (update inp s).collectibles, tablePoints c.points) ∧
      s.score ≤ (update inp s).score := by
  cases hrun : s.gameRunning
  · simpa [update, hrun] using h
  · rw [update_running inp s hrun]
    have h0 : ∀ c ∈ (expireBoost inp.nowExpiry
        { s with resolved := [], fish := moveFish inp.isThrusting s.fish }).collectibles,
        tablePoints c.points := by
      rw [expireBoost_collectibles]; exact h
    have hl := forEachFrom_points inp
      (expireBoost inp.nowExpiry
        { s with resolved := [], fish := moveFish inp.isThrusting s.fish }).collectibles.length
      0 _ h0
    refine ⟨maybeSpawn_points inp _ hl.1, ?_⟩
    rw [maybeSpawn_score]
    have := hl.2
    rw [expireBoost_score] at this
    exact this

theorem run_points (inputs : List Inputs) (s : GameState)
    (h : ∀ c ∈ s.collectibles, tablePoints c.points) :
    ∀ c ∈ (run s inputs).collectibles, tablePoints c.points := by
  induction inputs generalizing s with
  | nil => exact h
  | cons inp rest ih => rw [run_cons]; exact ih _ (update_points inp s h).1

/-- C2. Score monotonicity: in every state reachable from the initial state by
any sequence of calls of `update`, with any thrust inputs, clock readings and
random draws, every collectible in the array has its points among 1, 3, 5
and 0, and the score after one more call of `update` is at least the score
before it. -/
theorem score_never_decreases (inputs : List Inputs) (inp : Inputs) :
    (run initialState inputs).score ≤ (update inp (run initialState inputs)).score ∧
    (∀ c ∈ (run initialState inputs).collectibles, tablePoints c.points) ∧
    (run initialState (inputs ++ [inp])).score =
      (update inp (run initialState inputs)).score := by
  have hinit : ∀ c ∈ initialState.collectibles, tablePoints c.points := by
    intro c hc; simp [initialState] at hc
  have hinv := run_points inputs initialState hinit
  exact ⟨(update_points inp _ hinv).2, hinv, by rw [run_snoc]⟩

/-! ## Resolving one collision -/

theorem expireBoost_eq (now : Int) (s : GameState) :
    expireBoost now s =
      { s with boostActive := s.boostActive && !decide (now > s.boostEndTime) } := by
  unfold expireBoost
  cases hb : s.boostActive <;> by_cases hn : now > s.boostEndTime <;> simp [hb, hn]
  all_goals (cases s; simp_all)

theorem single_collision_loop (inp : Inputs) (s : GameState) (c0 : Collectible)
    (hlist : s.collectibles = [c0])
    (hhit : collides s.fish (advance s.boostActive c0) = true) :
    forEachCollectible inp s =
      if c0.type = "bubblePack" then
        { s with collectibles := [], boostActive := true, boostEndTime := inp.nowHit 0 + 3000,
                 resolved := s.resolved ++ [advance s.boostActive c0] }
      else
        { s with collectibles := [], score := s.score + c0.points,
                 resolved := s.resolved ++ [advance s.boostActive c0] } := by
  simp only [forEachCollectible, hlist, List.length_singleton, forEachFrom,
    List.getElem?_cons_zero, callback, hhit, if_true, splice1, advance_type,
    List.set_cons_zero, List.eraseIdx_cons_zero]
  split_ifs <;> rfl

/-- C4. Effect of resolving a collision, by type: when the array holds a single
collectible that, after its move in this frame, strictly overlaps the fish, one
call of `update` resolves it and leaves in the array nothing but the object it
may spawn; for a `bubblePack` the score is unchanged, `boostActive` becomes
true and `boostEndTime` the clock reading plus 3000; for any other type the
score grows by exactly the points of the collectible and the collision sets
neither `boostActive` nor `boostEndTime`. -/
theorem single_collision_effect (inp : Inputs) (s : GameState) (c0 : Collectible)
    (hrun : s.gameRunning = true) (hlist : s.collectibles = [c0])
    (hleft : (update inp s).fish.x <
      (advance (expireBoost inp.nowExpiry s).boostActive c0).x +
        (advance (expireBoost inp.nowExpiry s).boostActive c0).width)
    (hright : (update inp s).fish.x + (update inp s).fish.width >
      (advance (expireBoost inp.nowExpiry s).boostActive c0).x)
    (htop : (update inp s).fish.y <
      (advance (expireBoost inp.nowExpiry s).boostActive c0).y +
        (advance (expireBoost inp.nowExpiry s).boostActive c0).height)
    (hbottom : (update inp s).fish.y + (update inp s).fish.height >
      (advance (expireBoost inp.nowExpiry s).boostActive c0).y) :
    (update inp s).resolved = [advance (expireBoost inp.nowExpiry s).boostActive c0] ∧
    (¬ inp.spawnRoll < 2 / 100 → (update inp s).collectibles = []) ∧
    (inp.spawnRoll < 2 / 100 → ∃ c, (update inp s).collectibles = [c] ∧
      c.ref = s.nextRef ∧ c.x = CANVAS_WIDTH) ∧
    (c0.type = "bubblePack" →
      (update inp s).score = s.score ∧ (update inp s).boostActive = true ∧
      (update inp s).boostEndTime = inp.nowHit 0 + 3000) ∧
    (c0.type ≠ "bubblePack" →
      (update inp s).score = s.score + c0.points ∧
      (update inp s).boostActive = (expireBoost inp.nowExpiry s).boostActive ∧
      (update inp s).boostEndTime = s.boostEndTime) := by
  rw [update_fish inp s hrun] at hleft hright htop hbottom
  have hb : (expireBoost inp.nowExpiry
      { s with resolved := [], fish := moveFish inp.isThrusting s.fish }).boostActive =
      (expireBoost inp.nowExpiry s).boostActive := by
    rw [expireBoost_eq, expireBoost_eq]
  have hhit : collides (expireBoost inp.nowExpiry
      { s with resolved := [], fish := moveFish inp.isThrusting s.fish }).fish
      (advance (expireBoost inp.nowExpiry
        { s with resolved := [], fish := moveFish inp.isThrusting s.fish }).boostActive c0)
      = true := by
    rw [hb, expireBoost_fish]
    simp only [collides, Bool.and_eq_true, decide_eq_true_eq]
    exact ⟨⟨⟨hleft, hright⟩, htop⟩, hbottom⟩
  have hl : (expireBoost inp.nowExpiry
      { s with resolved := [], fish := moveFish inp.isThrusting s.fish }).collectibles = [c0] := by
    rw [expireBoost_collectibles]; exact hlist
  rw [update_running inp s hrun, single_collision_loop inp _ c0 hl hhit, hb]
  simp only [expireBoost_eq, maybeSpawn, spawnCollectible]
  by_cases hsp : inp.spawnRoll < 2 / 100 <;> by_cases ht : c0.type = "bubblePack" <;>
    simp [hsp, ht]

/-- The scenario of C4: a pearl worth 5 points at the position of the fish
raises the score by exactly 5, is removed and activates no power-up. -/
theorem single_collision_effect_witness :
    (mkCollectible 0 102 300 pearlType).type = "pearl" ∧
    (mkCollectible 0 102 300 pearlType).points = 5 ∧
    (stateWith [mkCollectible 0 102 300 pearlType]).boostActive = false ∧
    (update (idleInputs 0) (stateWith [mkCollectible 0 102 300 pearlType])).score =
      (stateWith [mkCollectible 0 102 300 pearlType]).score + 5 ∧
    (update (idleInputs 0) (stateWith [mkCollectible 0 102 300 pearlType])).collectibles = [] ∧
    (update (idleInputs 0) (stateWith [mkCollectible 0 102 300 pearlType])).boostActive =
      false := by
  have h := single_collision_effect (idleInputs 0)
    (stateWith [mkCollectible 0 102 300 pearlType]) (mkCollectible 0 102 300 pearlType)
    rfl rfl (by decide!) (by decide!) (by decide!) (by decide!)
  have hne : (mkCollectible 0 102 300 pearlType).type ≠ "bubblePack" := by decide
  have hsp : ¬ (idleInputs 0).spawnRoll < 2 / 100 := by norm_num [idleInputs]
  refine ⟨rfl, rfl, rfl, (h.2.2.2.2 hne).1, h.2.1 hsp, ?_⟩
  rw [(h.2.2.2.2 hne).2.1]
  rfl

/-! ## The boost flag through the loop -/

theorem forEachFrom_succ_some (inp : Inputs) (n k : Nat) (s : GameState) (c : Collectible)
    (h : s.collectibles[k]? = some c) :
    forEachFrom inp (n + 1) k s = forEachFrom inp n (k + 1) (callback inp c k s) := by
  rw [forEachFrom]; simp only [h]

theorem forEachFrom_succ_none (inp : Inputs) (n k : Nat) (s : GameState)
    (h : s.collectibles[k]? = none) :
    forEachFrom inp (n + 1) k s = forEachFrom inp n (k + 1) s := by
  rw [forEachFrom]; simp only [h]

theorem callback_resolved (inp : Inputs) (c : Collectible) (k : Nat) (s : GameState) :
    (callback inp c k s).resolved =
      if collides s.fish (advance s.boostActive c) then
        s.resolved ++ [advance s.boostActive c]
      else s.resolved := by
  unfold callback splice1
  dsimp only
  split_ifs <;> rfl

theorem callback_boost_hit (inp : Inputs) (c : Collectible) (k : Nat) (s : GameState)
    (hcol : collides s.fish (advance s.boostActive c) = true) (hty : c.type = "bubblePack") :
    (callback inp c k s).boostActive = true ∧
      (callback inp c k s).boostEndTime = inp.nowHit k + 3000 := by
  unfold callback splice1
  dsimp only
  rw [if_pos hcol, advance_type, if_pos hty]
  split_ifs <;> exact ⟨rfl, rfl⟩

theorem callback_boost_keep (inp : Inputs) (c : Collectible) (k : Nat) (s : GameState)
    (h : ¬ (collides s.fish (advance s.boostActive c) = true ∧ c.type = "bubblePack")) :
    (callback inp c k s).boostActive = s.boostActive ∧
      (callback inp c k s).boostEndTime = s.boostEndTime := by
  unfold callback splice1
  dsimp only
  by_cases hcol : collides s.fish (advance s.boostActive c) = true
  · have hty : ¬ c.type = "bubblePack" := fun hh => h ⟨hcol, hh⟩
    rw [if_pos hcol, advance_type, if_neg hty]
    split_ifs <;> exact ⟨rfl, rfl⟩
  · rw [if_neg hcol]
    split_ifs <;> exact ⟨rfl, rfl⟩

theorem forEachFrom_resolved_mono (inp : Inputs) (n k : Nat) (s : GameState) :
    ∀ c ∈ s.resolved, c ∈ (forEachFrom inp n k s).resolved := by
  induction n generalizing k s with
  | zero => exact fun c hc => hc
  | succ n ih =>
    intro c hc
    cases hk : s.collectibles[k]? with
    | none => rw [forEachFrom_succ_none inp n k s hk]; exact ih _ _ c hc
    | some c1 =>
      rw [forEachFrom_succ_some inp n k s c1 hk]
      apply ih
      rw [callback_resolved]
      split_ifs
      · exact List.mem_append_left _ hc
      · exact hc

theorem forEachFrom_boost_of_free (inp : Inputs) (n k : Nat) (s : GameState)
    (h : ∀ c ∈ (forEachFrom inp n k s).resolved, c.type ≠ "bubblePack") :
    (forEachFrom inp n k s).boostActive = s.boostActive ∧
      (forEachFrom inp n k s).boostEndTime = s.boostEndTime := by
  induction n generalizing k s with
  | zero => exact ⟨rfl, rfl⟩
  | succ n ih =>
    cases hk : s.collectibles[k]? with
    | none =>
      rw [forEachFrom_succ_none inp n k s hk] at h ⊢
      exact ih (k + 1) s h
    | some c1 =>
      rw [forEachFrom_succ_some inp n k s c1 hk] at h ⊢
      have h1 := ih (k + 1) _ h
      have hfree : ∀ c ∈ (callback inp c1 k s).resolved, c.type ≠ "bubblePack" :=
        fun c hc => h c (forEachFrom_resolved_mono inp n (k + 1) _ c hc)
      rw [callback_resolved] at hfree
      have hkeep := callback_boost_keep inp c1 k s (by
        rintro ⟨hcol, hty⟩
        have := hfree (advance s.boostActive c1) (by simp [hcol])
        rw [advance_type] at this
        exact this hty)
      rw [h1.1, h1.2]
      exact hkeep

theorem forEachFrom_boost_of_hit (inp : Inputs) (t0 : Int) (hclock : ∀ k, inp.nowHit k = t0)
    (n k : Nat) (s : GameState)
    (hs : (∃ c ∈ s.resolved, c.type = "bubblePack") →
      s.boostActive = true ∧ s.boostEndTime = t0 + 3000)
    (h : ∃ c ∈ (forEachFrom inp n k s).resolved, c.type = "bubblePack") :
    (forEachFrom inp n k s).boostActive = true ∧
      (forEachFrom inp n k s).boostEndTime = t0 + 3000 := by
  induction n generalizing k s with
  | zero => exact hs h
  | succ n ih =>
    cases hk : s.collectibles[k]? with
    | none =>
      rw [forEachFrom_succ_none inp n k s hk] at h ⊢
      exact ih (k + 1) s hs h
    | some c1 =>
      rw [forEachFrom_succ_some inp n k s c1 hk] at h ⊢
      refine ih (k + 1) _ ?_ h
      intro hex
      by_cases hhit : collides s.fish (advance s.boostActive c1) = true ∧ c1.type = "bubblePack"
      · have := callback_boost_hit inp c1 k s hhit.1 hhit.2
        rw [hclock] at this
        exact this
      · have hkeep := callback_boost_keep inp c1 k s hhit
        rw [hkeep.1, hkeep.2]
        apply hs
        rw [callback_resolved] at hex
        obtain ⟨c, hc, hct⟩ := hex
        split_ifs at hc with hcol
        · rw [List.mem_append, List.mem_singleton] at hc
          rcases hc with hc | hc
          · exact ⟨c, hc, hct⟩
          · rw [hc, advance_type] at hct
            exact absurd ⟨hcol, hct⟩ hhit
        · exact ⟨c, hc, hct⟩

theorem maybeSpawn_resolved (inp : Inputs) (s : GameState) :
    (maybeSpawn inp s).resolved = s.resolved := by
  unfold maybeSpawn spawnCollectible; split_ifs <;> rfl

theorem maybeSpawn_boostActive (inp : Inputs) (s : GameState) :
    (maybeSpawn inp s).boostActive = s.boostActive := by
  unfold maybeSpawn spawnCollectible; split_ifs <;> rfl

theorem maybeSpawn_boostEndTime (inp : Inputs) (s : GameState) :
    (maybeSpawn inp s).boostEndTime = s.boostEndTime := by
  unfold maybeSpawn spawnCollectible; split_ifs <;> rfl

theorem update_boost_of_free (inp : Inputs) (s : GameState) (hrun : s.gameRunning = true)
    (hfree : ∀ c ∈ (update inp s).resolved, c.type ≠ "bubblePack") :
    (update inp s).boostActive =
        (s.boostActive && !decide (inp.nowExpiry > s.boostEndTime)) ∧
      (update inp s).boostEndTime = s.boostEndTime := by
  rw [update_running inp s hrun] at hfree ⊢
  rw [maybeSpawn_resolved] at hfree
  rw [maybeSpawn_boostActive, maybeSpawn_boostEndTime]
  have h := forEachFrom_boost_of_free inp _ 0 _ hfree
  rw [forEachCollectible, h.1, h.2, expireBoost_eq]
  exact ⟨rfl, rfl⟩

theorem update_boost_of_hit (inp : Inputs) (s : GameState) (t0 : Int)
    (hrun : s.gameRunning = true) (hclock : ∀ k, inp.nowHit k = t0)
    (hex : ∃ c ∈ (update inp s).resolved, c.type = "bubblePack") :
    (update inp s).boostActive = true ∧ (update inp s).boostEndTime = t0 + 3000 := by
  rw [update_running inp s hrun] at hex ⊢
  rw [maybeSpawn_resolved] at hex
  rw [maybeSpawn_boostActive, maybeSpawn_boostEndTime]
  refine forEachFrom_boost_of_hit inp t0 hclock _ 0 _ ?_ hex
  rw [expireBoost_eq]
  rintro ⟨c, hc, _⟩
  simp at hc

theorem powerUpFree_cons (s : GameState) (inp : Inputs) (rest : List Inputs) :
    powerUpFree s (inp :: rest) = true ↔
      (∀ c ∈ (update inp s).resolved, c.type ≠ "bubblePack") ∧
        powerUpFree (update inp s) rest = true := by
  simp [powerUpFree]

theorem run_stays_off (inputs : List Inputs) (s : GameState) (hrun : s.gameRunning = true)
    (hoff : s.boostActive = false) (hfree : powerUpFree s inputs = true) :
    (run s inputs).boostActive = false := by
  induction inputs generalizing s with
  | nil => exact hoff
  | cons inp rest ih =>
    rw [powerUpFree_cons] at hfree
    rw [run_cons]
    refine ih _ (by rw [update_gameRunning]; exact hrun) ?_ hfree.2
    rw [(update_boost_of_free inp s hrun hfree.1).1, hoff]
    rfl

theorem run_boost (T : Int) (last : Inputs) (inputs : List Inputs) (s : GameState)
    (hrun : s.gameRunning = true) (hend : s.boostEndTime = T)
    (hstate : s.boostActive = true ∨ T < last.nowExpiry)
    (hclock : ∀ i ∈ inputs, i.nowExpiry ≤ last.nowExpiry)
    (hfree : powerUpFree s (inputs ++ [last]) = true) :
    (run s (inputs ++ [last])).boostActive = decide (last.nowExpiry ≤ T) := by
  induction inputs generalizing s with
  | nil =>
    rw [List.nil_append, powerUpFree_cons] at hfree
    rw [List.nil_append, run_cons]
    show (update last s).boostActive = _
    rw [(update_boost_of_free last s hrun hfree.1).1, hend]
    by_cases hx : last.nowExpiry ≤ T
    · have hx' : ¬ last.nowExpiry > T := not_lt.mpr hx
      rcases hstate with h | h
      · simp [h, hx, hx']
      · exact absurd h (not_lt.mpr hx)
    · have hx' : last.nowExpiry > T := not_le.mp hx
      simp [hx, hx']
  | cons inp rest ih =>
    rw [List.cons_append, powerUpFree_cons] at hfree
    rw [List.cons_append, run_cons]
    have hb := update_boost_of_free inp s hrun hfree.1
    refine ih _ (by rw [update_gameRunning]; exact hrun) (by rw [hb.2]; exact hend) ?_
      (fun i hi => hclock i (List.mem_cons_of_mem _ hi)) hfree.2
    rw [hb.1, hend]
    rcases hstate with h | h
    · rw [h]
      by_cases hx : inp.nowExpiry > T
      · right
        have := hclock inp (List.mem_cons_self _ _)
        omega
      · left; simp [hx]
    · exact Or.inr h

/-- The claim C8 fails at the instant of expiry: a power-up is consumed in a
frame whose clock reads 1000, so that `boostEndTime = 1000 + 3000`; the next
frame reads 4000, consumes no power-up, and leaves the boost flag true although
`4000 ≥ 1000 + 3000`. -/
theorem boost_outlives_expiry_instant :
    (∃ c ∈ (update (idleInputs 1000)
        (stateWith [mkCollectible 0 102 300 bubblePackType])).resolved,
      c.type = "bubblePack") ∧
    (update (idleInputs 1000)
      (stateWith [mkCollectible 0 102 300 bubblePackType])).boostEndTime = 1000 + 3000 ∧
    powerUpFree (update (idleInputs 1000)
      (stateWith [mkCollectible 0 102 300 bubblePackType])) [idleInputs 4000] = true ∧
    (idleInputs 4000).nowExpiry ≥ 1000 + 3000 ∧
    (run (update (idleInputs 1000)
      (stateWith [mkCollectible 0 102 300 bubblePackType])) [idleInputs 4000]).boostActive =
      true := by
  decide!

/-- C8, amended. Power-up lifecycle: if a power-up collectible is consumed in a
frame whose clock reads `t0`, then after that frame the boost flag is true and
`boostEndTime = t0 + 3000`; and for every later frame with clock reading `t`,
the clock not having run backwards and no further power-up having been consumed
in between, the flag after that frame is true when `t ≤ t0 + 3000` and false
when `t > t0 + 3000`; once false it stays false as long as no power-up is
consumed. -/
theorem boost_lifecycle (s : GameState) (act : Inputs) (t0 : Int)
    (inputs : List Inputs) (last : Inputs)
    (hrun : s.gameRunning = true)
    (hclock0 : ∀ k, act.nowHit k = t0)
    (hcons : ∃ c ∈ (update act s).resolved, c.type = "bubblePack")
    (hclock : ∀ i ∈ inputs, i.nowExpiry ≤ last.nowExpiry)
    (hfree : powerUpFree (update act s) (inputs ++ [last]) = true) :
    (update act s).boostActive = true ∧ (update act s).boostEndTime = t0 + 3000 ∧
    (last.nowExpiry ≤ t0 + 3000 →
      (run (update act s) (inputs ++ [last])).boostActive = true) ∧
    (t0 + 3000 < last.nowExpiry →
      (run (update act s) (inputs ++ [last])).boostActive = false) ∧
    ∀ later : List Inputs,
      (run (update act s) (inputs ++ [last])).boostActive = false →
      powerUpFree (run (update act s) (inputs ++ [last])) later = true →
      (run (run (update act s) (inputs ++ [last])) later).boostActive = false := by
  have hact := update_boost_of_hit act s t0 hrun hclock0 hcons
  have hrun1 : (update act s).gameRunning = true := by rw [update_gameRunning]; exact hrun
  have hb := run_boost (t0 + 3000) last inputs (update act s) hrun1 hact.2 (Or.inl hact.1)
    hclock hfree
  refine ⟨hact.1, hact.2, ?_, ?_, ?_⟩
  · intro h; rw [hb]; exact decide_eq_true h
  · intro h; rw [hb]; exact decide_eq_false (not_le.mpr h)
  · intro later hoff hfree2
    exact run_stays_off later _ (by rw [run_gameRunning]; exact hrun1) hoff hfree2

/-- The lifecycle of C8 for a power-up consumed at clock 1000: two frames
later, at clock 4000, the flag is still true. -/
theorem boost_lifecycle_witness :
    (stateWith [mkCollectible 0 102 300 bubblePackType]).gameRunning = true ∧
    (idleInputs 4000).nowExpiry ≤ 1000 + 3000 ∧
    (run (update (idleInputs 1000) (stateWith [mkCollectible 0 102 300 bubblePackType]))
      ([idleInputs 2000] ++ [idleInputs 4000])).boostActive = true :=
  ⟨rfl, by decide,
    (boost_lifecycle (stateWith [mkCollectible 0 102 300 bubblePackType]) (idleInputs 1000)
      1000 [idleInputs 2000] (idleInputs 4000) rfl (fun _ => rfl) (by decide!)
      (by simp [idleInputs]) (by decide!)).2.2.1 (by decide)⟩

/-! ## Object identities through the loop -/

theorem map_eraseIdx_comm {α β : Type} (f : α → β) :
    ∀ (l : List α) (k : Nat), (l.eraseIdx k).map f = (l.map f).eraseIdx k
  | [], _ => rfl
  | _ :: _, 0 => rfl
  | a :: l, k + 1 => by
    simp only [List.eraseIdx_cons_succ, List.map_cons, map_eraseIdx_comm f l k]

theorem eraseIdx_set_same {α : Type} :
    ∀ (l : List α) (k : Nat) (a : α), (l.set k a).eraseIdx k = l.eraseIdx k
  | [], _, _ => rfl
  | _ :: _, 0, _ => rfl
  | b :: l, k + 1, a => by
    simp only [List.set_cons_succ, List.eraseIdx_cons_succ, eraseIdx_set_same l k a]

theorem map_set_same {α β : Type} (f : α → β) :
    ∀ (l : List α) (k : Nat) (a c : α), l[k]? = some c → f a = f c →
      (l.set k a).map f = l.map f
  | [], _, _, _, _, _ => rfl
  | b :: l, 0, a, c, h, hf => by
    simp only [List.getElem?_cons_zero, Option.some.injEq] at h
    simp only [List.set_cons_zero, List.map_cons, hf, h]
  | b :: l, k + 1, a, c, h, hf => by
    simp only [List.getElem?_cons_succ] at h
    simp only [List.set_cons_succ, List.map_cons, map_set_same f l k a c h hf]

theorem not_mem_eraseIdx_of_nodup {α : Type} :
    ∀ (l : List α) (k : Nat) (a : α), l.Nodup → l[k]? = some a → a ∉ l.eraseIdx k
  | [], _, _, _, h => by simp at h
  | b :: l, 0, a, hn, h => by
    simp only [List.getElem?_cons_zero, Option.some.injEq] at h
    rw [List.eraseIdx_cons_zero, ← h]
    exact (List.nodup_cons.mp hn).1
  | b :: l, k + 1, a, hn, h => by
    simp only [List.getElem?_cons_succ] at h
    rw [List.eraseIdx_cons_succ, List.mem_cons, not_or]
    refine ⟨?_, not_mem_eraseIdx_of_nodup l k a (List.nodup_cons.mp hn).2 h⟩
    rintro rfl
    exact (List.nodup_cons.mp hn).1 (mem_of_getElem?_eq_some h)

/-- The array after the callback: the object at `index` is the moved one, then
each of the two tests that succeeds removes the element at `index`. -/
theorem callback_collectibles (inp : Inputs) (c : Collectible) (k : Nat) (s : GameState) :
    (callback inp c k s).collectibles =
      if (advance s.boostActive c).x + (advance s.boostActive c).width < 0 then
        (if collides s.fish (advance s.boostActive c) then
          (s.collectibles.set k (advance s.boostActive c)).eraseIdx k
        else s.collectibles.set k (advance s.boostActive c)).eraseIdx k
      else
        if collides s.fish (advance s.boostActive c) then
          (s.collectibles.set k (advance s.boostActive c)).eraseIdx k
        else s.collectibles.set k (advance s.boostActive c) := by
  unfold callback splice1
  dsimp only
  split_ifs <;> rfl

theorem collides_not_offscreen (f : Fish) (c : Collectible) (hx : 0 ≤ f.x)
    (h : collides f c = true) : ¬ c.x + c.width < 0 := by
  simp only [collides, Bool.and_eq_true, decide_eq_true_eq] at h
  linarith [h.1.1.1]

theorem callback_hit_exact (inp : Inputs) (c : Collectible) (k : Nat) (s : GameState)
    (hx : 0 ≤ s.fish.x) (h : collides s.fish (advance s.boostActive c) = true) :
    (callback inp c k s).collectibles = s.collectibles.eraseIdx k := by
  rw [callback_collectibles, if_neg (collides_not_offscreen _ _ hx h), if_pos h,
    eraseIdx_set_same]

theorem callback_liveRefs_sublist (inp : Inputs) (c : Collectible) (k : Nat) (s : GameState)
    (hk : s.collectibles[k]? = some c) :
    (liveRefs (callback inp c k s)).Sublist (liveRefs s) := by
  have hset : (s.collectibles.set k (advance s.boostActive c)).map (fun c => c.ref) =
      liveRefs s := map_set_same _ _ _ _ _ hk rfl
  unfold liveRefs at hset ⊢
  rw [callback_collectibles]
  split_ifs
  · rw [map_eraseIdx_comm, map_eraseIdx_comm, hset]
    exact (List.eraseIdx_sublist _ _).trans (List.eraseIdx_sublist _ _)
  · rw [map_eraseIdx_comm, hset]
    exact List.eraseIdx_sublist _ _
  · rw [map_eraseIdx_comm, hset]
    exact List.eraseIdx_sublist _ _
  · rw [hset]

theorem callback_liveRefs_hit (inp : Inputs) (c : Collectible) (k : Nat) (s : GameState)
    (hk : s.collectibles[k]? = some c)
    (h : collides s.fish (advance s.boostActive c) = true) :
    (liveRefs (callback inp c k s)).Sublist ((liveRefs s).eraseIdx k) := by
  have hset : (s.collectibles.set k (advance s.boostActive c)).map (fun c => c.ref) =
      liveRefs s := map_set_same _ _ _ _ _ hk rfl
  unfold liveRefs at hset ⊢
  rw [callback_collectibles, if_pos h]
  split_ifs
  · rw [map_eraseIdx_comm, map_eraseIdx_comm, hset]
    exact List.eraseIdx_sublist _ _
  · rw [map_eraseIdx_comm, hset]

theorem callback_inv (inp : Inputs) (A : List Nat) (c : Collectible) (k : Nat)
    (s : GameState) (hk : s.collectibles[k]? = some c) (h : LoopInv A s) :
    LoopInv A (callback inp c k s) := by
  obtain ⟨h1, h2, h3, h4, h5⟩ := h
  have hsub := callback_liveRefs_sublist inp c k s hk
  have hcref : c.ref ∈ liveRefs s := List.mem_map_of_mem _ (mem_of_getElem?_eq_some hk)
  have hkref : (liveRefs s)[k]? = some c.ref := by
    unfold liveRefs; rw [List.getElem?_map, hk]; rfl
  refine ⟨h1.sublist hsub, ?_, ?_, fun r hr => h4 r (hsub.subset hr), ?_⟩
  · unfold resolvedRefs
    rw [callback_resolved]
    split_ifs
    · rw [List.map_append, List.map_singleton, advance_ref]
      refine List.Nodup.append h2 (List.nodup_singleton _) ?_
      intro r hr hr'
      rw [List.mem_singleton] at hr'
      rw [hr'] at hr
      exact h3 _ hr hcref
    · exact h2
  · unfold resolvedRefs
    rw [callback_resolved]
    split_ifs with hcol
    · intro r hr hlive
      rw [List.map_append, List.map_singleton, advance_ref, List.mem_append,
        List.mem_singleton] at hr
      rcases hr with hr | hr
      · exact h3 r hr (hsub.subset hlive)
      · rw [hr] at hlive
        exact not_mem_eraseIdx_of_nodup _ k _ h1 hkref
          ((callback_liveRefs_hit inp c k s hk hcol).subset hlive)
    · exact fun r hr hlive => h3 r hr (hsub.subset hlive)
  · unfold resolvedRefs
    rw [callback_resolved]
    split_ifs
    · intro r hr
      rw [List.map_append, List.map_singleton, advance_ref, List.mem_append,
        List.mem_singleton] at hr
      rcases hr with hr | hr
      · exact h5 r hr
      · rw [hr]; exact h4 _ hcref
    · exact h5

theorem forEachFrom_inv (inp : Inputs) (A : List Nat) (n k : Nat) (s : GameState)
    (h : LoopInv A s) : LoopInv A (forEachFrom inp n k s) := by
  induction n generalizing k s with
  | zero => exact h
  | succ n ih =>
    cases hk : s.collectibles[k]? with
    | none => rw [forEachFrom_succ_none inp n k s hk]; exact ih _ _ h
    | some c =>
      rw [forEachFrom_succ_some inp n k s c hk]
      exact ih _ _ (callback_inv inp A c k s hk h)

theorem expireBoost_resolved (now : Int) (s : GameState) :
    (expireBoost now s).resolved = s.resolved := by
  unfold expireBoost; split_ifs <;> rfl

theorem expireBoost_nextRef (now : Int) (s : GameState) :
    (expireBoost now s).nextRef = s.nextRef := by
  unfold expireBoost; split_ifs <;> rfl

theorem maybeSpawn_liveRefs (inp : Inputs) (s : GameState) :
    (liveRefs (maybeSpawn inp s) = liveRefs s ∧ (maybeSpawn inp s).nextRef = s.nextRef) ∨
    (liveRefs (maybeSpawn inp s) = liveRefs s ++ [s.nextRef] ∧
      (maybeSpawn inp s).nextRef = s.nextRef + 1) := by
  unfold maybeSpawn spawnCollectible liveRefs
  split_ifs
  · right; simp
  · left; exact ⟨rfl, rfl⟩

theorem update_refs (inp : Inputs) (s : GameState) (hwf : WellFormed s) :
    WellFormed (update inp s) ∧ (resolvedRefs (update inp s)).Nodup ∧
    (∀ r ∈ resolvedRefs (update inp s), r ∈ liveRefs s ∧ r ∉ liveRefs (update inp s)) ∧
    (∀ r ∈ liveRefs (update inp s), r ∈ liveRefs s ∨ r = s.nextRef) ∧
    s.nextRef ≤ (update inp s).nextRef := by
  obtain ⟨hnd, hlt⟩ := hwf
  cases hrun : s.gameRunning
  · have hu : update inp s = { s with resolved := [] } := by simp [update, hrun]
    rw [hu]
    refine ⟨⟨hnd, hlt⟩, List.nodup_nil, ?_, fun r hr => Or.inl hr, le_refl _⟩
    intro r hr
    simp [resolvedRefs] at hr
  · rw [update_running inp s hrun]
    have hinv0 : LoopInv (liveRefs s) (expireBoost inp.nowExpiry
        { s with resolved := [], fish := moveFish inp.isThrusting s.fish }) := by
      have hl : liveRefs (expireBoost inp.nowExpiry
          { s with resolved := [], fish := moveFish inp.isThrusting s.fish }) = liveRefs s := by
        unfold liveRefs; rw [expireBoost_collectibles]
      have hr : resolvedRefs (expireBoost inp.nowExpiry
          { s with resolved := [], fish := moveFish inp.isThrusting s.fish }) = [] := by
        unfold resolvedRefs; rw [expireBoost_resolved]; rfl
      refine ⟨?_, ?_, ?_, ?_, ?_⟩
      · rw [hl]; exact hnd
      · rw [hr]; exact List.nodup_nil
      · rw [hr]; intro r h; simp at h
      · rw [hl]; exact fun r h => h
      · rw [hr]; intro r h; simp at h
    have hinv := forEachFrom_inv inp (liveRefs s)
      (expireBoost inp.nowExpiry
        { s with resolved := [], fish := moveFish inp.isThrusting s.fish }).collectibles.length
      0 _ hinv0
    have hnext : (forEachCollectible inp (expireBoost inp.nowExpiry
        { s with resolved := [], fish := moveFish inp.isThrusting s.fish })).nextRef =
        s.nextRef := by
      rw [forEachCollectible, forEachFrom_nextRef, expireBoost_nextRef]
    obtain ⟨i1, i2, i3, i4, i5⟩ := hinv
    have hres : resolvedRefs (maybeSpawn inp (forEachCollectible inp
        (expireBoost inp.nowExpiry
          { s with resolved := [], fish := moveFish inp.isThrusting s.fish }))) =
        resolvedRefs (forEachCollectible inp (expireBoost inp.nowExpiry
          { s with resolved := [], fish := moveFish inp.isThrusting s.fish })) := by
      unfold resolvedRefs; rw [maybeSpawn_resolved]
    rw [hres]
    rcases maybeSpawn_liveRefs inp (forEachCollectible inp (expireBoost inp.nowExpiry
        { s with resolved := [], fish := moveFish inp.isThrusting s.fish })) with
      ⟨hl, hn⟩ | ⟨hl, hn⟩
    · unfold WellFormed
      rw [hl, hn, hnext]
      exact ⟨⟨i1, fun r hr => hlt r (i4 r hr)⟩, i2, fun r hr => ⟨i5 r hr, i3 r hr⟩,
        fun r hr => Or.inl (i4 r hr), le_refl _⟩
    · unfold WellFormed
      rw [hl, hn, hnext]
      refine ⟨⟨?_, ?_⟩, i2, ?_, ?_, Nat.le_succ _⟩
      · refine List.Nodup.append i1 (List.nodup_singleton _) ?_
        intro r hr hr'
        rw [List.mem_singleton] at hr'
        have := hlt r (i4 r hr)
        omega
      · intro r hr
        rw [List.mem_append, List.mem_singleton] at hr
        rcases hr with hr | hr
        · have := hlt r (i4 r hr); omega
        · omega
      · intro r hr
        refine ⟨i5 r hr, ?_⟩
        rw [List.mem_append, List.mem_singleton, not_or]
        refine ⟨i3 r hr, ?_⟩
        have := hlt r (i5 r hr)
        omega
      · intro r hr
        rw [List.mem_append, List.mem_singleton] at hr
        rcases hr with hr | hr
        · exact Or.inl (i4 r hr)
        · exact Or.inr hr

theorem collectedAlong_refs (inputs : List Inputs) (s : GameState) (hwf : WellFormed s) :
    ((collectedAlong s inputs).map (fun c => c.ref)).Nodup ∧
    ∀ r ∈ (collectedAlong s inputs).map (fun c => c.ref), r ∈ liveRefs s ∨ s.nextRef ≤ r := by
  induction inputs generalizing s with
  | nil => exact ⟨List.nodup_nil, fun r hr => by simp [collectedAlong] at hr⟩
  | cons inp rest ih =>
    obtain ⟨t1, t2, t3, t4, t5⟩ := update_refs inp s hwf
    obtain ⟨ih1, ih2⟩ := ih (update inp s) t1
    have hsplit : (collectedAlong s (inp :: rest)).map (fun c => c.ref) =
        resolvedRefs (update inp s) ++
          (collectedAlong (update inp s) rest).map (fun c => c.ref) := by
      simp [collectedAlong, resolvedRefs]
    rw [hsplit]
    refine ⟨List.Nodup.append t2 ih1 ?_, ?_⟩
    · intro r hr hr'
      rcases ih2 r hr' with h | h
      · exact (t3 r hr).2 h
      · have := hwf.2 r (t3 r hr).1
        omega
    · intro r hr
      rw [List.mem_append] at hr
      rcases hr with hr | hr
      · exact Or.inl (t3 r hr).1
      · rcases ih2 r hr with h | h
        · rcases t4 r h with h' | h'
          · exact Or.inl h'
          · exact Or.inr (by omega)
        · exact Or.inr (by omega)

theorem scoredPoints_snoc (l : List Collectible) (c : Collectible) :
    scoredPoints (l ++ [c]) =
      scoredPoints l + if c.type = "bubblePack" then 0 else c.points := by
  unfold scoredPoints
  rw [List.filter_append, List.map_append, List.sum_append]
  by_cases h : c.type = "bubblePack" <;> simp [List.filter_cons, h]

theorem callback_score_eq (inp : Inputs) (c : Collectible) (k : Nat) (s : GameState) :
    (callback inp c k s).score =
      if collides s.fish (advance s.boostActive c) then
        s.score + if c.type = "bubblePack" then 0 else c.points
      else s.score := by
  unfold callback splice1
  dsimp only
  rw [advance_type, advance_points]
  by_cases hcol : collides s.fish (advance s.boostActive c) = true <;>
    by_cases hty : c.type = "bubblePack" <;>
    simp only [hcol, hty, if_true, if_false, add_zero] <;>
    split_ifs <;> rfl

theorem callback_account (inp : Inputs) (c : Collectible) (k : Nat) (s : GameState) :
    (callback inp c k s).score + scoredPoints s.resolved =
      s.score + scoredPoints (callback inp c k s).resolved := by
  rw [callback_score_eq, callback_resolved]
  by_cases hcol : collides s.fish (advance s.boostActive c) = true
  · rw [if_pos hcol, if_pos hcol, scoredPoints_snoc, advance_type, advance_points]; ring
  · rw [if_neg hcol, if_neg hcol]

theorem forEachFrom_account (inp : Inputs) (n k : Nat) (s : GameState) :
    (forEachFrom inp n k s).score + scoredPoints s.resolved =
      s.score + scoredPoints (forEachFrom inp n k s).resolved := by
  induction n generalizing k s with
  | zero => rfl
  | succ n ih =>
    cases hk : s.collectibles[k]? with
    | none => rw [forEachFrom_succ_none inp n k s hk]; exact ih _ _
    | some c =>
      rw [forEachFrom_succ_some inp n k s c hk]
      have h1 := ih (k + 1) (callback inp c k s)
      have h2 := callback_account inp c k s
      linarith

theorem update_account (inp : Inputs) (s : GameState) :
    (update inp s).score = s.score + scoredPoints (update inp s).resolved := by
  cases hrun : s.gameRunning
  · simp [update, hrun, scoredPoints]
  · rw [update_running inp s hrun, maybeSpawn_score, maybeSpawn_resolved]
    have h := forEachFrom_account inp
      (expireBoost inp.nowExpiry
        { s with resolved := [], fish := moveFish inp.isThrusting s.fish }).collectibles.length
      0 (expireBoost inp.nowExpiry
        { s with resolved := [], fish := moveFish inp.isThrusting s.fish })
    rw [expireBoost_resolved, expireBoost_score] at h
    simp only [scoredPoints, List.filter_nil, List.map_nil, List.sum_nil, add_zero] at h
    exact h
theorem run_wellFormed (inputs : List Inputs) (s : GameState) (hwf : WellFormed s) :
    WellFormed (run s inputs) := by
  induction inputs generalizing s with
  | nil => exact hwf
  | cons inp rest ih => rw [run_cons]; exact ih _ (update_refs inp s hwf).1

theorem initialState_wellFormed : WellFormed initialState := by
  unfold WellFormed liveRefs initialState
  exact ⟨List.nodup_nil, fun r hr => by simp at hr⟩

/-- C3. Single consumption: in a state that respects the heap discipline (as
every state reachable from the initial one does), each collectible whose
collision is resolved in a call of `update` was in the array when the call
began and is absent from it when the call ends; no object is resolved twice in
the call; the score grows by exactly the points of the resolved collectibles
that are not power-ups; in the callback, with the fish at `x = 100`, a
colliding collectible does not pass the off-screen test and the array after
the callback is the array before it with exactly the element at the index of
that collectible removed; and over any run no collectible is counted in more
than one resolved collision. -/
theorem single_consumption (inp : Inputs) (s : GameState) (hwf : WellFormed s) :
    (∀ e ∈ (update inp s).resolved,
      e.ref ∈ liveRefs s ∧ ∀ c ∈ (update inp s).collectibles, c.ref ≠ e.ref) ∧
    (resolvedRefs (update inp s)).Nodup ∧
    (update inp s).score = s.score + scoredPoints (update inp s).resolved ∧
    (∀ (st : GameState) (k : Nat) (c : Collectible),
      st.fish.x = 100 → st.collectibles[k]? = some c →
      collides st.fish (advance st.boostActive c) = true →
      ¬ (advance st.boostActive c).x + (advance st.boostActive c).width < 0 ∧
      (callback inp c k st).collectibles = st.collectibles.eraseIdx k) ∧
    (∀ inputs : List Inputs, ((collectedAlong s inputs).map (fun c => c.ref)).Nodup) ∧
    (∀ inputs : List Inputs, WellFormed (run initialState inputs)) := by
  obtain ⟨_, t2, t3, _, _⟩ := update_refs inp s hwf
  refine ⟨?_, t2, update_account inp s, ?_, fun inputs => (collectedAlong_refs inputs s hwf).1,
    fun inputs => run_wellFormed inputs _ initialState_wellFormed⟩
  · intro e he
    have her : e.ref ∈ resolvedRefs (update inp s) := List.mem_map_of_mem _ he
    refine ⟨(t3 _ her).1, fun c hc heq => (t3 _ her).2 ?_⟩
    rw [← heq]
    exact List.mem_map_of_mem _ hc
  · intro st k c hx _ hcol
    have hx0 : 0 ≤ st.fish.x := by rw [hx]; norm_num
    exact ⟨collides_not_offscreen _ _ hx0 hcol, callback_hit_exact inp c k st hx0 hcol⟩

/-- The statement of C3 for a pearl at the fish followed by a starfish further
right: the pearl is resolved, once, and only the starfish is left. -/
theorem single_consumption_witness :
    WellFormed (stateWith
      [mkCollectible 0 102 300 pearlType, mkCollectible 1 400 300 starfishType]) ∧
    resolvedRefs (update (idleInputs 0) (stateWith
      [mkCollectible 0 102 300 pearlType, mkCollectible 1 400 300 starfishType])) = [0] ∧
    liveRefs (update (idleInputs 0) (stateWith
      [mkCollectible 0 102 300 pearlType, mkCollectible 1 400 300 starfishType])) = [1] ∧
    (resolvedRefs (update (idleInputs 0) (stateWith
      [mkCollectible 0 102 300 pearlType, mkCollectible 1 400 300 starfishType]))).Nodup :=
  ⟨by unfold WellFormed; decide, by decide!, by decide!,
    (single_consumption (idleInputs 0)
      (stateWith [mkCollectible 0 102 300 pearlType, mkCollectible 1 400 300 starfishType])
      (by unfold WellFormed; decide)).2.1⟩

/-! ## Removal during the forward iteration -/

theorem advance_offscreen (b : Bool) (c : Collectible) (h : c.x + c.width < 0) :
    (advance b c).x + (advance b c).width < 0 := by
  simp only [advance, COLLECTIBLE_SPEED]
  split_ifs <;> linarith

theorem callback_liveRefs_off (inp : Inputs) (c : Collectible) (k : Nat) (s : GameState)
    (hk : s.collectibles[k]? = some c)
    (h : (advance s.boostActive c).x + (advance s.boostActive c).width < 0) :
    (liveRefs (callback inp c k s)).Sublist ((liveRefs s).eraseIdx k) := by
  have hset : (s.collectibles.set k (advance s.boostActive c)).map (fun c => c.ref) =
      liveRefs s := map_set_same _ _ _ _ _ hk rfl
  unfold liveRefs at hset ⊢
  rw [callback_collectibles, if_pos h]
  split_ifs
  · rw [map_eraseIdx_comm, map_eraseIdx_comm, hset]
    exact List.eraseIdx_sublist _ _
  · rw [map_eraseIdx_comm, hset]

theorem forEachFrom_liveRefs_sublist (inp : Inputs) (n k : Nat) (s : GameState) :
    (liveRefs (forEachFrom inp n k s)).Sublist (liveRefs s) := by
  induction n generalizing k s with
  | zero => exact List.Sublist.refl _
  | succ n ih =>
    cases hk : s.collectibles[k]? with
    | none => rw [forEachFrom_succ_none inp n k s hk]; exact ih _ _
    | some c =>
      rw [forEachFrom_succ_some inp n k s c hk]
      exact (ih _ _).trans (callback_liveRefs_sublist inp c k s hk)

theorem callback_stays (inp : Inputs) (c : Collectible) (k : Nat) (s : GameState)
    (h : staysInArray s.boostActive s.fish c = true) :
    callback inp c k s =
      { s with collectibles := s.collectibles.set k (advance s.boostActive c) } := by
  simp only [staysInArray, Bool.and_eq_true, Bool.not_eq_true', decide_eq_false_iff_not] at h
  unfold callback
  simp only [h.1, h.2, Bool.false_eq_true, if_false]

theorem forEachFrom_reaches (inp : Inputs) (k : Nat) (c : Collectible)
    (hoff : c.x + c.width < 0) :
    ∀ (d j n : Nat) (s : GameState), j + d = k → d < n →
      (∀ i, j ≤ i → i < k → ∀ ci, s.collectibles[i]? = some ci →
        staysInArray s.boostActive s.fish ci = true) →
      s.collectibles[k]? = some c → (liveRefs s).Nodup →
      c.ref ∉ liveRefs (forEachFrom inp n j s) := by
  intro d
  induction d with
  | zero =>
    intro j n s hj hn _ hk hnd
    have hjk : j = k := by omega
    subst hjk
    obtain ⟨n', rfl⟩ : ∃ n', n = n' + 1 := ⟨n - 1, by omega⟩
    rw [forEachFrom_succ_some inp n' j s c hk]
    have hkref : (liveRefs s)[j]? = some c.ref := by
      unfold liveRefs; rw [List.getElem?_map, hk]; rfl
    intro hmem
    exact not_mem_eraseIdx_of_nodup _ j _ hnd hkref
      ((callback_liveRefs_off inp c j s hk (advance_offscreen _ _ hoff)).subset
        ((forEachFrom_liveRefs_sublist inp n' (j + 1) _).subset hmem))
  | succ d ih =>
    intro j n s hj hn hstay hk hnd
    obtain ⟨n', rfl⟩ : ∃ n', n = n' + 1 := ⟨n - 1, by omega⟩
    have hjlt : j < s.collectibles.length := by
      have := (List.getElem?_eq_some.mp hk).1
      omega
    obtain ⟨cj, hcj⟩ : ∃ cj, s.collectibles[j]? = some cj :=
      ⟨_, List.getElem?_eq_getElem hjlt⟩
    rw [forEachFrom_succ_some inp n' j s cj hcj,
      callback_stays inp cj j s (hstay j (le_refl _) (by omega) cj hcj)]
    have hother : ∀ i, j ≠ i →
        (s.collectibles.set j (advance s.boostActive cj))[i]? = s.collectibles[i]? :=
      fun i h => List.getElem?_set_ne h
    refine ih (j + 1) n' _ (by omega) (by omega) ?_ ?_ ?_
    · intro i hi hik ci hci
      have hci2 : (s.collectibles.set j (advance s.boostActive cj))[i]? = some ci := hci
      rw [hother i (by omega)] at hci2
      exact hstay i (by omega) hik ci hci2
    · show (s.collectibles.set j (advance s.boostActive cj))[k]? = some c
      rw [hother k (by omega)]
      exact hk
    · have hrefs : (s.collectibles.set j (advance s.boostActive cj)).map (fun c => c.ref) =
          liveRefs s := map_set_same _ _ _ _ _ hcj rfl
      show ((s.collectibles.set j (advance s.boostActive cj)).map (fun c => c.ref)).Nodup
      rw [hrefs]; exact hnd

theorem callback_onscreen (inp : Inputs) (c : Collectible) (k : Nat) (s : GameState)
    (h : ∀ c' ∈ s.collectibles, 0 ≤ c'.x + c'.width) :
    ∀ c' ∈ (callback inp c k s).collectibles, 0 ≤ c'.x + c'.width := by
  intro c' hc'
  rw [callback_collectibles] at hc'
  by_cases hoff : (advance s.boostActive c).x + (advance s.boostActive c).width < 0
  · rw [if_pos hoff] at hc'
    have hmem : c' ∈ s.collectibles.eraseIdx k := by
      split_ifs at hc'
      · rw [eraseIdx_set_same] at hc'
        exact (List.eraseIdx_sublist _ _).subset hc'
      · rw [eraseIdx_set_same] at hc'
        exact hc'
    exact h c' ((List.eraseIdx_sublist _ _).subset hmem)
  · rw [if_neg hoff] at hc'
    have hmem : c' ∈ s.collectibles.set k (advance s.boostActive c) := by
      split_ifs at hc'
      · exact (List.eraseIdx_sublist _ _).subset hc'
      · exact hc'
    rcases List.mem_or_eq_of_mem_set hmem with h1 | h1
    · exact h c' h1
    · rw [h1]; exact not_lt.mp hoff

theorem forEachFrom_onscreen (inp : Inputs) (n k : Nat) (s : GameState)
    (h : ∀ c' ∈ s.collectibles, 0 ≤ c'.x + c'.width) :
    ∀ c' ∈ (forEachFrom inp n k s).collectibles, 0 ≤ c'.x + c'.width := by
  induction n generalizing k s with
  | zero => exact h
  | succ n ih =>
    cases hk : s.collectibles[k]? with
    | none => rw [forEachFrom_succ_none inp n k s hk]; exact ih _ _ h
    | some c =>
      rw [forEachFrom_succ_some inp n k s c hk]
      exact ih _ _ (callback_onscreen inp c k s h)

theorem update_onscreen (inp : Inputs) (s : GameState)
    (h : ∀ c' ∈ s.collectibles, 0 ≤ c'.x + c'.width) :
    ∀ c' ∈ (update inp s).collectibles, 0 ≤ c'.x + c'.width := by
  cases hrun : s.gameRunning
  · simpa [update, hrun] using h
  · rw [update_running inp s hrun]
    have h0 : ∀ c' ∈ (expireBoost inp.nowExpiry
        { s with resolved := [], fish := moveFish inp.isThrusting s.fish }).collectibles,
        0 ≤ c'.x + c'.width := by
      rw [expireBoost_collectibles]; exact h
    have hl := forEachFrom_onscreen inp
      (expireBoost inp.nowExpiry
        { s with resolved := [], fish := moveFish inp.isThrusting s.fish }).collectibles.length
      0 _ h0
    unfold maybeSpawn spawnCollectible
    split_ifs
    · intro c' hc'
      simp only [List.mem_append, List.mem_singleton] at hc'
      rcases hc' with hc' | hc'
      · exact hl c' hc'
      · rw [hc']; norm_num [CANVAS_WIDTH]
    · exact hl

theorem run_onscreen (inputs : List Inputs) (s : GameState)
    (h : ∀ c' ∈ s.collectibles, 0 ≤ c'.x + c'.width) :
    ∀ c' ∈ (run s inputs).collectibles, 0 ≤ c'.x + c'.width := by
  induction inputs generalizing s with
  | nil => exact h
  | cons inp rest ih => rw [run_cons]; exact ih _ (update_onscreen inp s h)

/-- The claim C9 fails: in a state with two collectibles whose right edge is
left of the boundary (`x = -40`, width 30), the callback removes the first one,
the second one moves to index 0, the loop goes on at index 1, and the second
collectible is still in the array, unmoved, when `update` returns. -/
theorem offscreen_neighbour_survives :
    mkCollectible 1 (-40) 400 starfishType ∈
      (stateWith [mkCollectible 0 (-40) 200 shellType,
        mkCollectible 1 (-40) 400 starfishType]).collectibles ∧
    (mkCollectible 1 (-40) 400 starfishType).x +
      (mkCollectible 1 (-40) 400 starfishType).width < 0 ∧
    (update (idleInputs 0) (stateWith [mkCollectible 0 (-40) 200 shellType,
      mkCollectible 1 (-40) 400 starfishType])).collectibles =
      [mkCollectible 1 (-40) 400 starfishType] := by
  decide!

/-- C9, amended. Off-screen removal: in a state that respects the heap
discipline, a collectible of the array whose right edge is left of the boundary
(`x + width < 0`) is absent from the array after the next call of `update`
whenever no collectible before it in the array is removed in that call (none
of them, after its move, overlaps the fish or is off-screen), in particular
when it is the first of the array; and in the states reachable from the
initial state no collectible of the array has `x + width < 0`, a collectible
that its move takes past the boundary being removed in the same callback. -/
theorem offscreen_removed_when_reached (inp : Inputs) (s : GameState) (k : Nat)
    (c : Collectible) (hrun : s.gameRunning = true) (hwf : WellFormed s)
    (hk : s.collectibles[k]? = some c) (hoff : c.x + c.width < 0)
    (hbefore : ∀ i < k, ∀ ci, s.collectibles[i]? = some ci →
      staysInArray (expireBoost inp.nowExpiry s).boostActive (update inp s).fish ci = true) :
    (∀ c' ∈ (update inp s).collectibles, c'.ref ≠ c.ref) ∧
    ∀ inputs : List Inputs, ∀ c' ∈ (run initialState inputs).collectibles,
      0 ≤ c'.x + c'.width := by
  refine ⟨?_, fun inputs => run_onscreen inputs initialState
    (fun c' hc' => by simp [initialState] at hc')⟩
  rw [update_fish inp s hrun] at hbefore
  have hklt : k < s.collectibles.length := (List.getElem?_eq_some.mp hk).1
  have hcref : c.ref < s.nextRef := hwf.2 _ (List.mem_map_of_mem _ (mem_of_getElem?_eq_some hk))
  have hloop : c.ref ∉ liveRefs (forEachCollectible inp (expireBoost inp.nowExpiry
      { s with resolved := [], fish := moveFish inp.isThrusting s.fish })) := by
    unfold forEachCollectible
    refine forEachFrom_reaches inp k c hoff k 0 _ _ (by omega) ?_ ?_ ?_ ?_
    · rw [expireBoost_collectibles]; exact hklt
    · intro i _ hik ci hci
      rw [expireBoost_collectibles] at hci
      rw [expireBoost_fish]
      have hb : (expireBoost inp.nowExpiry
          { s with resolved := [], fish := moveFish inp.isThrusting s.fish }).boostActive =
          (expireBoost inp.nowExpiry s).boostActive := by
        rw [expireBoost_eq, expireBoost_eq]
      rw [hb]
      exact hbefore i hik ci hci
    · rw [expireBoost_collectibles]; exact hk
    · unfold liveRefs; rw [expireBoost_collectibles]; exact hwf.1
  have hnext : (forEachCollectible inp (expireBoost inp.nowExpiry
      { s with resolved := [], fish := moveFish inp.isThrusting s.fish })).nextRef =
      s.nextRef := by
    rw [forEachCollectible, forEachFrom_nextRef, expireBoost_nextRef]
  intro c' hc' heq
  have hmem : c.ref ∈ liveRefs (update inp s) := by
    rw [← heq]; exact List.mem_map_of_mem _ hc'
  rw [update_running inp s hrun] at hmem
  rcases maybeSpawn_liveRefs inp (forEachCollectible inp (expireBoost inp.nowExpiry
      { s with resolved := [], fish := moveFish inp.isThrusting s.fish })) with
    ⟨hl, _⟩ | ⟨hl, _⟩
  · rw [hl] at hmem; exact hloop hmem
  · rw [hl, List.mem_append, List.mem_singleton, hnext] at hmem
    rcases hmem with h | h
    · exact hloop h
    · omega

/-- The statement of C9 for a shell at `x = -40` with width 30 that follows a
starfish in mid-screen: the shell is gone after one call of `update`. -/
theorem offscreen_removed_when_reached_witness :
    WellFormed (stateWith
      [mkCollectible 0 400 300 starfishType, mkCollectible 1 (-40) 200 shellType]) ∧
    (mkCollectible 1 (-40) 200 shellType).x + (mkCollectible 1 (-40) 200 shellType).width
      < 0 ∧
    liveRefs (stateWith
      [mkCollectible 0 400 300 starfishType, mkCollectible 1 (-40) 200 shellType]) = [0, 1] ∧
    ∀ c' ∈ (update (idleInputs 0) (stateWith
      [mkCollectible 0 400 300 starfishType, mkCollectible 1 (-40) 200 shellType])).collectibles,
      c'.ref ≠ (mkCollectible 1 (-40) 200 shellType).ref :=
  ⟨by unfold WellFormed; decide, by decide!, by decide,
    (offscreen_removed_when_reached (idleInputs 0)
      (stateWith [mkCollectible 0 400 300 starfishType, mkCollectible 1 (-40) 200 shellType])
      1 (mkCollectible 1 (-40) 200 shellType) rfl (by unfold WellFormed; decide) rfl
      (by decide!)
      (by
        intro i hi ci hci
        obtain rfl : i = 0 := by omega
        have hci2 : some (mkCollectible 0 400 300 starfishType) = some ci := hci
        rw [← Option.some.inj hci2]
        decide!)).1⟩

/-- The failing input of C10: a pearl (5 points) and a starfish (3 points)
both overlap the fish in the same frame.  Only the first one in the array is
resolved: the score grows by 5, not by 8, the starfish is still in the array,
unmoved, and with the two collectibles in the other order the score grows
by 3. -/
theorem overlapping_neighbour_skipped :
    collides (update (idleInputs 0) (stateWith [mkCollectible 0 110 300 pearlType,
      mkCollectible 1 114 300 starfishType])).fish
      (advance false (mkCollectible 0 110 300 pearlType)) = true ∧
    collides (update (idleInputs 0) (stateWith [mkCollectible 0 110 300 pearlType,
      mkCollectible 1 114 300 starfishType])).fish
      (advance false (mkCollectible 1 114 300 starfishType)) = true ∧
    (stateWith [mkCollectible 0 110 300 pearlType,
      mkCollectible 1 114 300 starfishType]).score = 0 ∧
    (update (idleInputs 0) (stateWith [mkCollectible 0 110 300 pearlType,
      mkCollectible 1 114 300 starfishType])).score = 5 ∧
    (update (idleInputs 0) (stateWith [mkCollectible 0 110 300 pearlType,
      mkCollectible 1 114 300 starfishType])).collectibles =
      [mkCollectible 1 114 300 starfishType] ∧
    (update (idleInputs 0) (stateWith [mkCollectible 1 114 300 starfishType,
      mkCollectible 0 110 300 pearlType])).score = 3 := by
  decide!

end FishSwim
